import Mathlib

/-!
Verification development for the annotation app in `app.py`.

The app maintains a CSV table `gpt_matches.csv` with a string `ID` column,
an integer `GPT` column and one column per username; each user cell is an
integer label (1/0) or NA.  We embed the table shallowly:

* `TRow` is one row: its `id`, its `GPT` cell (`none` = NaN in the CSV),
  and its per-user cells, positionally aligned with the table's `userCols`.
* `Table` is a pandas DataFrame: its list of user column names (the columns
  other than `ID` and `GPT`, in order) and its rows (in order).

All ids are `String` from the start: `app.py` forces `dtype={"ID": str}` on
read and calls `.astype(str)`, so coercion-to-string is the typing of the
model itself.  A CSV whose `GPT` column is absent behaves, after
`load_annotations`'s `fillna(0)`, exactly like one whose `GPT` cells are all
NaN, so a missing `GPT` column is modelled as all-`none` `gpt` fields.
-/

/-- One row of the annotation table: `ID`, the `GPT` cell (`none` = NaN),
and the user cells in the order of the table's user columns. -/
structure TRow where
  id : String
  gpt : Option Int
  labels : List (Option Int)
deriving DecidableEq, Repr

/-- The annotation table: user column names (order of the CSV header after
`ID` and `GPT`) and the rows. -/
structure Table where
  userCols : List String
  rows : List TRow
deriving DecidableEq, Repr

/-- A real DataFrame has a cell for every row/column pair: every row's
`labels` list has exactly one entry per user column. -/
def Table.WF (t : Table) : Prop :=
  ∀ r ∈ t.rows, r.labels.length = t.userCols.length

instance (t : Table) : Decidable t.WF := by
  unfold Table.WF; infer_instance

/-- Position of a username in the user-column list (pandas column lookup). -/
def colIdx (u : String) : List String → Option Nat
  | [] => none
  | c :: cs => if c = u then some 0 else (colIdx u cs).map (· + 1)

/-- The cell of row `r` in user column `u` of table `t` (`none` when NaN). -/
def userCellRow (t : Table) (u : String) (r : TRow) : Option Int :=
  match colIdx u t.userCols with
  | some j => r.labels.getD j none
  | none => none

/-- First row with a given id — `df[df["ID"] == id].iloc[0]`. -/
def firstRowWithId (rows : List TRow) (i : String) : Option TRow :=
  rows.find? (fun r => r.id == i)

/-- `ann_df.loc[mask, username].iloc[0]` for `mask = (ann_df["ID"] == id)`:
the user's cell in the first row carrying `id`. -/
def getCell (t : Table) (id u : String) : Option Int :=
  match firstRowWithId t.rows id with
  | some r => userCellRow t u r
  | none => none

/-- The fresh table `pd.DataFrame({"ID": ids, "GPT": [0]*len(ids)})`
synthesized by `load_annotations` when the CSV file does not exist. -/
def freshRows (ids : List String) : List TRow :=
  ids.map (fun i => { id := i, gpt := some 0, labels := [] })

/-- `drop_duplicates(subset=["ID"], keep="first")`: keep each row whose id
was not seen in an earlier row. -/
def dropDupRowsAux (seen : List String) : List TRow → List TRow
  | [] => []
  | r :: rs =>
    if r.id ∈ seen then dropDupRowsAux seen rs
    else r :: dropDupRowsAux (r.id :: seen) rs

def dropDupRows (l : List TRow) : List TRow :=
  dropDupRowsAux [] l

/-- One row of `base.merge(ann_df, on="ID", how="left")`: the (unique, after
dedup) matching row of `ann_df`, or an all-NaN row for an unmatched id. -/
def mergeRow (cols : List String) (rows2 : List TRow) (i : String) : TRow :=
  match firstRowWithId rows2 i with
  | some r => r
  | none => { id := i, gpt := none, labels := cols.map (fun _ => none) }

/-- `load_annotations()` from `app.py` (lines 79–115).  `ids` is the Sample id
list from `sample_200.json`; `csv` is the stored CSV (`none` = file absent).
Steps: synthesize a fresh table when the file is missing; drop duplicate ids
keeping the first; keep only ids that are in the Sample set; left-merge onto
the ordered Sample id list; fill missing GPT with 0 (as `Int`). -/
def load_annotations (ids : List String) (csv : Option Table) : Table :=
  let ann : Table :=
    match csv with
    | some t => t
    | none => { userCols := [], rows := freshRows ids }
  let rows1 := dropDupRows ann.rows
  let rows2 := rows1.filter (fun r => r.id ∈ ids)
  let merged := ids.map (fun i => mergeRow ann.userCols rows2 i)
  { userCols := ann.userCols
  , rows := merged.map (fun r => { r with gpt := some (r.gpt.getD 0) }) }

/-- `save_annotations(df)` from `app.py` (lines 118–127): the CSV file
content written out — the table deduplicated by id, keeping the first. -/
def save_annotations (t : Table) : Table :=
  { t with rows := dropDupRows t.rows }

/-- `ann_df_local[username] = pd.NA` guarded by
`if username not in ann_df_local.columns` (lines 287–288): append an all-NaN
column for the user when absent. -/
def ensureUserCol (t : Table) (u : String) : Table :=
  if u ∈ t.userCols then t
  else { userCols := t.userCols ++ [u]
       , rows := t.rows.map (fun r => { r with labels := r.labels ++ [none] }) }

/-- Set the user cell at column position `j` of a row. -/
def setRowCell (j : Nat) (v : Int) (r : TRow) : TRow :=
  { r with labels := r.labels.set j (some v) }

/-- The `set_label` operation of the click handler (lines 295–302): read the
user's cell in the first row carrying `id`; if it is NaN, assign
`label_value` at `loc[mask, username]`, i.e. in every row carrying `id`;
otherwise leave the table alone, preserving the earlier decision. -/
def set_label (t : Table) (id u : String) (v : Int) : Table :=
  match colIdx u t.userCols with
  | none => t
  | some j =>
    if (getCell t id u).isSome then t
    else { t with rows := t.rows.map (fun r => if r.id == id then setRowCell j v r else r) }

/-!  Remote sync (`upload_to_dropbox` / `download_from_dropbox`, lines 13–40).
The Dropbox calls are external I/O; their outcome is a parameter of the
model, and the Python `try/except` wrappers become total Lean functions:
"never raises to the caller" is the totality of these definitions, and the
theorems state what each outcome branch does to local state. -/

/-- Outcome of `dbx.files_download(REMOTE_CSV_PATH)`: the downloaded table,
a `dropbox.exceptions.ApiError` (file not found), or any other exception. -/
inductive DownloadOutcome where
  | success (content : Table)
  | apiError
  | otherError (msg : String)
deriving DecidableEq, Repr

/-- Result of `download_from_dropbox`: the local file afterwards, the
returned Bool, and the warnings shown. -/
structure PullResult where
  localFile : Option Table
  retrieved : Bool
  warnings : List String
deriving DecidableEq, Repr

/-- `download_from_dropbox` (lines 26–40): on `ApiError` return False
silently (first run); on any other exception warn and return False; only on
success open the local file and overwrite it with the downloaded content. -/
def download_from_dropbox (outcome : DownloadOutcome) (localFile : Option Table) : PullResult :=
  match outcome with
  | .success c => { localFile := some c, retrieved := true, warnings := [] }
  | .apiError => { localFile := localFile, retrieved := false, warnings := [] }
  | .otherError m =>
      { localFile := localFile, retrieved := false
      , warnings := ["Could not download CSV from Dropbox: " ++ m] }

/-- Outcome of `dbx.files_upload`: success, or any exception. -/
inductive UploadOutcome where
  | ok
  | fail (msg : String)
deriving DecidableEq, Repr

/-- `upload_to_dropbox` (lines 13–23): read the local file and upload it in
overwrite mode; any exception (a missing local file included) is caught and
becomes a warning, leaving the remote copy as it was.  Returns the remote
copy afterwards and the warnings shown. -/
def upload_to_dropbox (localFile : Option Table) (outcome : UploadOutcome)
    (remote : Option Table) : Option Table × List String :=
  match localFile with
  | none => (remote, ["Could not upload CSV to Dropbox: missing local file"])
  | some c =>
    match outcome with
    | .ok => (some c, [])
    | .fail m => (remote, ["Could not upload CSV to Dropbox: " ++ m])

/-!  Session state and the click handler. -/

/-- The mutable state the handler touches: the local CSV file, the remote
Dropbox copy, and the session's `current_id` (`none` models both an unset
key and an explicit `None`). -/
structure World where
  localFile : Option Table
  remote : Option Table
  currentId : Option String
deriving DecidableEq, Repr

/-- The observable side effects of one handler run, in order. -/
inductive Event where
  | load
  | err
  | setLabel
  | save
  | push
  | clearCurrentId
  | rerun
deriving DecidableEq, Repr

/-- `update_label_and_rerun(label_value)` from `app.py` (lines 280–306), for
a session with `username` and `current_id`: reload the annotation table from
the local file, add the user column if absent, abort with an internal error
when no row carries `current_id` (`mask.sum() == 0`), otherwise apply the
conditional `set_label`; when the cell was NaN, save the table to the local
file and push it to Dropbox; finally clear `current_id` and rerun.  Returns
the resulting state and the trace of effects in program order. -/
def update_label_and_rerun (ids : List String) (username current_id : String)
    (w : World) (label_value : Int) (outcome : UploadOutcome) : World × List Event :=
  let ann1 := ensureUserCol (load_annotations ids w.localFile) username
  if ann1.rows.countP (fun r => r.id == current_id) = 0 then
    (w, [Event.load, Event.err])
  else if (getCell ann1 current_id username).isSome then
    ({ w with currentId := none },
     [Event.load, Event.setLabel, Event.clearCurrentId, Event.rerun])
  else
    let saved := save_annotations (set_label ann1 current_id username label_value)
    let pushed := upload_to_dropbox (some saved) outcome w.remote
    ({ localFile := some saved, remote := pushed.1, currentId := none },
     [Event.load, Event.setLabel, Event.save, Event.push,
      Event.clearCurrentId, Event.rerun])

/-!  Progress and random-item selection (`app.py` lines 217–240). -/

/-- `remaining_ids = ann_df.loc[user_col.isna(), "ID"].tolist()` (line 234). -/
def remaining_ids (t : Table) (u : String) : List String :=
  (t.rows.filter (fun r => (userCellRow t u r).isNone)).map TRow.id

/-- What the selection section ends in: the completion state (`st.success` +
`st.stop`, no pick), or a displayed id together with whether it came from a
fresh `random.choice`. -/
inductive SelectOutcome where
  | completed
  | selected (id : String) (picked : Bool)
deriving DecidableEq, Repr

/-- Lines 217–242: compute the labeled count and `remaining`; stop with the
completion message when `remaining == 0`; otherwise keep the held
`current_id` when it is still in `remaining_ids`, and draw a random element
of `remaining_ids` when there is none or it is stale.  `random.choice` is
modelled by an arbitrary index `k`, reduced modulo the list length. -/
def select_step (t : Table) (u : String) (cur : Option String) (k : Nat) : SelectOutcome :=
  let already_labeled := t.rows.countP (fun r => (userCellRow t u r).isSome)
  if t.rows.length - already_labeled = 0 then
    SelectOutcome.completed
  else
    let rem := remaining_ids t u
    match cur with
    | some c =>
      if c ∈ rem then SelectOutcome.selected c false
      else SelectOutcome.selected (rem.getD (k % rem.length) "") true
    | none => SelectOutcome.selected (rem.getD (k % rem.length) "") true

/-!  Helper lemmas. -/

lemma colIdx_lt_length {u : String} : ∀ {cols : List String} {j : Nat},
    colIdx u cols = some j → j < cols.length := by
  intro cols
  induction cols with
  | nil => intro j h; simp [colIdx] at h
  | cons c cs ih =>
    intro j h
    by_cases hc : c = u
    · simp only [colIdx, if_pos hc] at h
      cases h
      simp only [List.length_cons]
      omega
    · simp only [colIdx, if_neg hc] at h
      cases hcs : colIdx u cs with
      | none => rw [hcs] at h; simp at h
      | some j' =>
        rw [hcs] at h
        simp at h
        have := ih hcs
        simp only [List.length_cons]
        omega

lemma colIdx_isSome_of_mem {u : String} : ∀ {cols : List String},
    u ∈ cols → (colIdx u cols).isSome := by
  intro cols
  induction cols with
  | nil => intro h; simp at h
  | cons c cs ih =>
    intro h
    by_cases hc : c = u
    · simp [colIdx, hc]
    · rcases List.mem_cons.mp h with h1 | h2
      · exact absurd h1.symm hc
      · have hs := ih h2
        simp only [colIdx, if_neg hc]
        cases hcs : colIdx u cs with
        | none => rw [hcs] at hs; simp at hs
        | some j' => simp

lemma firstRowWithId_dropDupRowsAux {i : String} : ∀ (l : List TRow) (seen : List String),
    i ∉ seen → firstRowWithId (dropDupRowsAux seen l) i = firstRowWithId l i := by
  intro l
  induction l with
  | nil => intro seen _; rfl
  | cons r rs ih =>
    intro seen hseen
    by_cases hmem : r.id ∈ seen
    · have hne : (r.id == i) = false := by
        simp only [beq_eq_false_iff_ne]
        intro hcontra
        exact hseen (hcontra ▸ hmem)
      simp only [dropDupRowsAux, if_pos hmem, firstRowWithId, List.find?, hne]
      exact ih seen hseen
    · by_cases hri : r.id = i
      · subst hri
        simp [dropDupRowsAux, if_neg hmem, firstRowWithId, List.find?]
      · have hne : (r.id == i) = false := by simp [hri]
        simp only [dropDupRowsAux, if_neg hmem, firstRowWithId, List.find?, hne]
        exact ih (r.id :: seen) (by
          intro hcontra
          rcases List.mem_cons.mp hcontra with h1 | h2
          · exact hri h1.symm
          · exact hseen h2)

lemma firstRowWithId_dropDupRows (l : List TRow) (i : String) :
    firstRowWithId (dropDupRows l) i = firstRowWithId l i :=
  firstRowWithId_dropDupRowsAux l [] (by simp)

lemma firstRowWithId_filter {p : TRow → Bool} {i : String}
    (hp : ∀ r : TRow, r.id = i → p r = true) :
    ∀ l : List TRow, firstRowWithId (l.filter p) i = firstRowWithId l i := by
  intro l
  induction l with
  | nil => rfl
  | cons r rs ih =>
    by_cases hri : r.id = i
    · simp [firstRowWithId, List.filter, hp r hri, List.find?, hri]
    · have hne : (r.id == i) = false := by simp [hri]
      cases hpr : p r
      · simp only [firstRowWithId, List.filter, hpr]
        rw [show (List.find? (fun r => r.id == i) (r :: rs)) = List.find? (fun r => r.id == i) rs
          from by simp [List.find?, hne]]
        exact ih
      · simp only [firstRowWithId, List.filter, hpr, List.find?, hne]
        exact ih

lemma find?_beq_self_of_mem {i : String} : ∀ {ids : List String},
    i ∈ ids → ids.find? (fun j => j == i) = some i := by
  intro ids
  induction ids with
  | nil => intro h; simp at h
  | cons j js ih =>
    intro h
    by_cases hj : j = i
    · simp [List.find?, hj]
    · have : (j == i) = false := by simp [hj]
      simp only [List.find?, this]
      exact ih (by
        rcases List.mem_cons.mp h with h1 | h2
        · exact absurd h1.symm hj
        · exact h2)

lemma firstRowWithId_map_of_id {f : String → TRow} (hf : ∀ j, (f j).id = j)
    (ids : List String) (i : String) :
    firstRowWithId (ids.map f) i = (ids.find? (fun j => j == i)).map f := by
  unfold firstRowWithId
  rw [List.find?_map]
  have hfun : ((fun r : TRow => r.id == i) ∘ f) = (fun j => j == i) := by
    funext j
    simp [Function.comp, hf j]
  rw [hfun]

lemma mergeRow_id (cols : List String) (rows2 : List TRow) (i : String) :
    (mergeRow cols rows2 i).id = i := by
  unfold mergeRow
  cases hf : firstRowWithId rows2 i with
  | none => rfl
  | some r =>
    have := List.find?_some hf
    simpa using this

lemma load_rows_eq (ids : List String) (csv : Option Table) :
    (load_annotations ids csv).rows =
      ids.map (fun i =>
        let ann : Table :=
          match csv with
          | some t => t
          | none => { userCols := [], rows := freshRows ids }
        let r := mergeRow ann.userCols
          ((dropDupRows ann.rows).filter (fun r => r.id ∈ ids)) i
        { r with gpt := some (r.gpt.getD 0) }) := by
  cases csv <;> simp [load_annotations]

lemma load_userCols (ids : List String) (t : Table) :
    (load_annotations ids (some t)).userCols = t.userCols := rfl

lemma load_map_id (ids : List String) (csv : Option Table) :
    (load_annotations ids csv).rows.map TRow.id = ids := by
  rw [load_rows_eq, List.map_map]
  have : ∀ i ∈ ids, (TRow.id ∘ fun i =>
      let ann : Table :=
        match csv with
        | some t => t
        | none => { userCols := [], rows := freshRows ids }
      let r := mergeRow ann.userCols
        ((dropDupRows ann.rows).filter (fun r => r.id ∈ ids)) i
      { r with gpt := some (r.gpt.getD 0) }) i = i := by
    intro i _
    simp [Function.comp, mergeRow_id]
  rw [List.map_congr_left this, List.map_id']

/-- The load pipeline keeps, for each Sample id, the FIRST row of the stored
CSV carrying that id (if any), filling its GPT cell; unmatched ids get a
synthesized all-NaN row with GPT 0. -/
lemma firstRowWithId_load_some (ids : List String) (t : Table) (i : String) (h : i ∈ ids) :
    firstRowWithId (load_annotations ids (some t)).rows i =
      match firstRowWithId t.rows i with
      | some r0 => some { r0 with gpt := some (r0.gpt.getD 0) }
      | none => some { id := i, gpt := some 0, labels := t.userCols.map (fun _ => none) } := by
  rw [load_rows_eq]
  have hfid : ∀ j : String, ((fun j =>
      let r := mergeRow t.userCols
        ((dropDupRows t.rows).filter (fun r => r.id ∈ ids)) j
      { r with gpt := some (r.gpt.getD 0) } : String → TRow) j).id = j := by
    intro j
    simp [mergeRow_id]
  rw [firstRowWithId_map_of_id hfid ids i, find?_beq_self_of_mem h]
  have hfilter : firstRowWithId
      ((dropDupRows t.rows).filter (fun r => r.id ∈ ids)) i =
      firstRowWithId (dropDupRows t.rows) i := by
    apply firstRowWithId_filter
    intro r hr
    simp [hr, h]
  rw [Option.map_some']
  unfold mergeRow
  rw [hfilter, firstRowWithId_dropDupRows]
  cases hf : firstRowWithId t.rows i with
  | none => rfl
  | some r0 => rfl

lemma firstRowWithId_freshRows (ids : List String) (i : String) (h : i ∈ ids) :
    firstRowWithId (freshRows ids) i = some { id := i, gpt := some 0, labels := [] } := by
  unfold freshRows
  rw [firstRowWithId_map_of_id (f := fun i => { id := i, gpt := some 0, labels := [] })
      (fun j => rfl) ids i, find?_beq_self_of_mem h, Option.map_some']

/-!  Claim theorems. -/

/-- C1: for every input CSV state (present or absent) and every Sample id
list (ids are distinct per the Sample contract), the table `load_annotations`
returns has exactly one row per Sample id in the Sample list's order, with no
duplicate ids and none outside the Sample set; duplicate ids in the stored
CSV are dropped keeping the first occurrence, and missing GPT values are
filled with the integer 0 (ids are strings by the typing of the model, which
mirrors `dtype={"ID": str}` / `.astype(str)`). -/
theorem load_reconciles (ids : List String) (csv : Option Table) (hnd : ids.Nodup) :
    (load_annotations ids csv).rows.map TRow.id = ids
  ∧ ((load_annotations ids csv).rows.map TRow.id).Nodup
  ∧ (∀ r ∈ (load_annotations ids csv).rows, ∃ n : Int, r.gpt = some n)
  ∧ (∀ t : Table, csv = some t → ∀ i ∈ ids,
      firstRowWithId (load_annotations ids csv).rows i =
        match firstRowWithId t.rows i with
        | some r0 => some { r0 with gpt := some (r0.gpt.getD 0) }
        | none => some { id := i, gpt := some 0, labels := t.userCols.map (fun _ => none) }) := by
  refine ⟨load_map_id ids csv, ?_, ?_, ?_⟩
  · rw [load_map_id]
    exact hnd
  · intro r hr
    rw [load_rows_eq] at hr
    obtain ⟨i, _, rfl⟩ := List.mem_map.mp hr
    exact ⟨_, rfl⟩
  · intro t hcsv i hi
    subst hcsv
    exact firstRowWithId_load_some ids t i hi

/-- Witness for C1 at a CSV holding an unknown id `"x"`, a duplicated id
`"a"` and a NaN GPT cell. -/
theorem load_reconciles_witness :
    (load_annotations ["a", "b"]
        (some { userCols := ["u"]
              , rows := [ { id := "x", gpt := none, labels := [some 1] }
                        , { id := "a", gpt := none, labels := [some 0] }
                        , { id := "a", gpt := some 3, labels := [none] } ] })).rows.map TRow.id
      = ["a", "b"]
  ∧ firstRowWithId (load_annotations ["a", "b"]
        (some { userCols := ["u"]
              , rows := [ { id := "x", gpt := none, labels := [some 1] }
                        , { id := "a", gpt := none, labels := [some 0] }
                        , { id := "a", gpt := some 3, labels := [none] } ] })).rows "a"
      = match firstRowWithId [ { id := "x", gpt := none, labels := [some 1] }
                             , { id := "a", gpt := none, labels := [some 0] }
                             , { id := "a", gpt := some 3, labels := [none] } ] "a" with
        | some r0 => some { r0 with gpt := some (r0.gpt.getD 0) }
        | none => some { id := "a", gpt := some 0, labels := ["u"].map (fun _ => none) } :=
  ⟨(load_reconciles ["a", "b"] _ (by decide)).1,
   (load_reconciles ["a", "b"] _ (by decide)).2.2.2 _ rfl "a" (by decide)⟩

/-- C5: when the local annotation file is absent, `load_annotations` (a total
function — it never throws) synthesizes the table from the Sample id list:
one row per listed id, `GPT = 0` everywhere, and no user columns. -/
theorem load_absent_file_synthesizes (ids : List String) :
    (load_annotations ids none).userCols = []
  ∧ (load_annotations ids none).rows
      = ids.map (fun i => { id := i, gpt := some 0, labels := [] })
  ∧ (load_annotations ids none).rows.length = ids.length := by
  have hrows : (load_annotations ids none).rows
      = ids.map (fun i => ({ id := i, gpt := some 0, labels := [] } : TRow)) := by
    rw [load_rows_eq]
    apply List.map_congr_left
    intro i hi
    have hm : firstRowWithId
        ((dropDupRows (freshRows ids)).filter (fun r => r.id ∈ ids)) i
        = some { id := i, gpt := some 0, labels := [] } := by
      rw [firstRowWithId_filter (by intro r hr; simp [hr, hi]),
          firstRowWithId_dropDupRows, firstRowWithId_freshRows ids i hi]
    simp [mergeRow, hm]
  exact ⟨rfl, hrows, by rw [hrows, List.length_map]⟩

/-- C6: `save_annotations` followed by `load_annotations` reconciles: the
result's user columns are unchanged, its row ids are exactly the Sample id
list (unknown-id rows are gone), and for each Sample id the surviving row is
the first row of the saved table carrying that id (later duplicates are
gone) with every user label preserved and GPT preserved whenever present
(a NaN GPT becomes 0; a Sample id absent from the saved table gets a
synthesized all-NaN row). -/
theorem save_load_roundtrip (t : Table) (ids : List String) :
    (load_annotations ids (some (save_annotations t))).userCols = t.userCols
  ∧ (load_annotations ids (some (save_annotations t))).rows.map TRow.id = ids
  ∧ ∀ i ∈ ids,
      firstRowWithId (load_annotations ids (some (save_annotations t))).rows i =
        match firstRowWithId t.rows i with
        | some r0 => some { r0 with gpt := some (r0.gpt.getD 0) }
        | none => some { id := i, gpt := some 0, labels := t.userCols.map (fun _ => none) } := by
  refine ⟨rfl, load_map_id _ _, ?_⟩
  intro i hi
  have h1 : (save_annotations t).rows = dropDupRows t.rows := rfl
  have h2 : (save_annotations t).userCols = t.userCols := rfl
  rw [firstRowWithId_load_some ids (save_annotations t) i hi, h1, h2,
      firstRowWithId_dropDupRows]

/-- Witness for C6 at a table with a duplicated id and a labelled cell. -/
theorem save_load_roundtrip_witness :
    firstRowWithId (load_annotations ["a"] (some (save_annotations
        { userCols := ["u"]
        , rows := [ { id := "a", gpt := some 2, labels := [some 1] }
                  , { id := "a", gpt := none, labels := [none] } ] }))).rows "a"
      = match firstRowWithId [ { id := "a", gpt := some 2, labels := [some 1] }
                             , { id := "a", gpt := none, labels := [none] } ] "a" with
        | some r0 => some { r0 with gpt := some (r0.gpt.getD 0) }
        | none => some { id := "a", gpt := some 0, labels := ["u"].map (fun _ => none) } :=
  (save_load_roundtrip
    { userCols := ["u"]
    , rows := [ { id := "a", gpt := some 2, labels := [some 1] }
              , { id := "a", gpt := none, labels := [none] } ] } ["a"]).2.2 "a" (by decide)

lemma set_label_userCols (t : Table) (id u : String) (v : Int) :
    (set_label t id u v).userCols = t.userCols := by
  unfold set_label
  cases hc : colIdx u t.userCols with
  | none => rfl
  | some j =>
    by_cases hg : (getCell t id u).isSome
    · simp [hg]
    · simp [hg]

lemma getD_set_self {α : Type} (l : List α) (j : Nat) (a d : α) (h : j < l.length) :
    (l.set j a).getD j d = a := by
  rw [List.getD_eq_getElem?_getD, List.getElem?_set_self h]
  rfl

lemma firstRowWithId_map_cond (l : List TRow) (i : String) (g : TRow → TRow)
    (hg : ∀ r, (g r).id = r.id) (r0 : TRow) (h : firstRowWithId l i = some r0) :
    firstRowWithId (l.map (fun r => if r.id == i then g r else r)) i = some (g r0) := by
  unfold firstRowWithId at h ⊢
  rw [List.find?_map]
  have hcomp : ((fun r : TRow => r.id == i) ∘ (fun r => if r.id == i then g r else r))
      = (fun r : TRow => r.id == i) := by
    funext r
    by_cases hr : r.id = i
    · simp [Function.comp, hr, hg]
    · simp [Function.comp, hr]
  rw [hcomp, h, Option.map_some']
  have hbeq : (r0.id == i) = true := by simpa using List.find?_some h
  simp [hbeq]

lemma firstRowWithId_exists_of_mem_map {t : Table} {id : String}
    (hid : id ∈ t.rows.map TRow.id) :
    ∃ r0, firstRowWithId t.rows id = some r0 := by
  obtain ⟨r, hrmem, hrid⟩ := List.mem_map.mp hid
  have hs : (t.rows.find? (fun r => r.id == id)).isSome := by
    rw [List.find?_isSome]
    exact ⟨r, hrmem, by simp [hrid]⟩
  exact Option.isSome_iff_exists.mp hs

lemma getCell_set_label_self (t : Table) (id u : String) (v : Int)
    (hwf : t.WF) (hu : u ∈ t.userCols)
    (hid : id ∈ t.rows.map TRow.id) (hnone : getCell t id u = none) :
    getCell (set_label t id u v) id u = some v := by
  obtain ⟨j, hj⟩ := Option.isSome_iff_exists.mp (colIdx_isSome_of_mem hu)
  obtain ⟨r0, hr0⟩ := firstRowWithId_exists_of_mem_map hid
  have hgs : (getCell t id u).isSome = false := by rw [hnone]; rfl
  have hform : set_label t id u v
      = { t with rows := t.rows.map (fun r => if r.id == id then setRowCell j v r else r) } := by
    unfold set_label
    rw [hj]
    simp [hgs]
  rw [hform]
  have hfind : firstRowWithId
      (t.rows.map (fun r => if r.id == id then setRowCell j v r else r)) id
      = some (setRowCell j v r0) :=
    firstRowWithId_map_cond t.rows id (setRowCell j v) (fun r => rfl) r0 hr0
  unfold getCell
  rw [hfind]
  unfold userCellRow setRowCell
  simp only []
  rw [hj]
  have hjlt : j < r0.labels.length := by
    rw [hwf r0 (List.mem_of_find?_eq_some hr0)]
    exact colIdx_lt_length hj
  exact getD_set_self r0.labels j (some v) none hjlt

/-- C7: neither `push` nor `pull` ever raises to the caller — both are total
functions of the remote call's outcome.  Every failure (missing remote file,
token or network error on download; any exception on upload, a missing local
file included) leaves the local/remote state untouched, shows at most one
non-blocking warning, and execution continues; a pull failure returns
`false`, exactly the not-found first-run outcome. -/
theorem remote_sync_never_raises (lf r : Option Table) (c : Table) (m : String)
    (o : UploadOutcome) :
    (download_from_dropbox DownloadOutcome.apiError lf).retrieved = false
  ∧ (download_from_dropbox DownloadOutcome.apiError lf).localFile = lf
  ∧ (download_from_dropbox DownloadOutcome.apiError lf).warnings = []
  ∧ (download_from_dropbox (DownloadOutcome.otherError m) lf).retrieved = false
  ∧ (download_from_dropbox (DownloadOutcome.otherError m) lf).localFile = lf
  ∧ (download_from_dropbox (DownloadOutcome.otherError m) lf).warnings.length = 1
  ∧ (download_from_dropbox (DownloadOutcome.otherError m) lf).retrieved
      = (download_from_dropbox DownloadOutcome.apiError lf).retrieved
  ∧ (upload_to_dropbox (some c) (UploadOutcome.fail m) r).1 = r
  ∧ (upload_to_dropbox (some c) (UploadOutcome.fail m) r).2.length = 1
  ∧ (upload_to_dropbox none o r).1 = r
  ∧ (upload_to_dropbox none o r).2.length = 1 :=
  ⟨rfl, rfl, rfl, rfl, rfl, rfl, rfl, rfl, rfl, rfl, rfl⟩

/-- C10: a failed pull leaves the local annotation file unchanged —
`download_from_dropbox` writes the local file only in the branch where the
remote download fully succeeded, and there it overwrites it with the
complete downloaded content. -/
theorem download_failure_preserves_local (lf : Option Table) (m : String) (c : Table) :
    (download_from_dropbox DownloadOutcome.apiError lf).localFile = lf
  ∧ (download_from_dropbox (DownloadOutcome.otherError m) lf).localFile = lf
  ∧ (download_from_dropbox (DownloadOutcome.success c) lf).localFile = some c :=
  ⟨rfl, rfl, rfl⟩

/-- C2: `set_label` is idempotent per (id, username): on a well-formed table
holding a row for `id` and a column for `u`, a call on an already-set cell
changes nothing; a call on an unset cell sets it to the given value; and
after any first call, a second call with any other value leaves the table
exactly as the first call left it — only the first value survives. -/
theorem set_label_first_write_wins (t : Table) (id u : String) (v v1 v2 : Int)
    (hwf : t.WF) (hu : u ∈ t.userCols) (hid : id ∈ t.rows.map TRow.id) :
    ((getCell t id u).isSome → set_label t id u v = t)
  ∧ (getCell t id u = none → getCell (set_label t id u v) id u = some v)
  ∧ set_label (set_label t id u v1) id u v2 = set_label t id u v1 := by
  obtain ⟨j, hj⟩ := Option.isSome_iff_exists.mp (colIdx_isSome_of_mem hu)
  have hnoop : ∀ (t' : Table) (j' : Nat) (v' : Int), colIdx u t'.userCols = some j' →
      (getCell t' id u).isSome → set_label t' id u v' = t' := by
    intro t' j' v' hj' hs
    unfold set_label
    rw [hj']
    simp [hs]
  refine ⟨hnoop t j v hj, ?_, ?_⟩
  · intro hn
    exact getCell_set_label_self t id u v hwf hu hid hn
  · cases hg : getCell t id u with
    | some w =>
      have h1 : set_label t id u v1 = t := hnoop t j v1 hj (by rw [hg]; rfl)
      rw [h1]
      exact hnoop t j v2 hj (by rw [hg]; rfl)
    | none =>
      have h2 : getCell (set_label t id u v1) id u = some v1 :=
        getCell_set_label_self t id u v1 hwf hu hid hg
      have hu' : u ∈ (set_label t id u v1).userCols := by
        rw [set_label_userCols]; exact hu
      obtain ⟨j', hj'⟩ := Option.isSome_iff_exists.mp (colIdx_isSome_of_mem hu')
      exact hnoop (set_label t id u v1) j' v2 hj' (by rw [h2]; rfl)

/-- Witness for C2: the first write (Yes) sticks; the second (No) is a
no-op. -/
theorem set_label_first_write_wins_witness :
    getCell (set_label { userCols := ["alice"]
                       , rows := [ { id := "a", gpt := some 0, labels := [none] } ] }
                "a" "alice" 1) "a" "alice" = some 1
  ∧ set_label (set_label { userCols := ["alice"]
                         , rows := [ { id := "a", gpt := some 0, labels := [none] } ] }
                  "a" "alice" 1) "a" "alice" 0
      = set_label { userCols := ["alice"]
                  , rows := [ { id := "a", gpt := some 0, labels := [none] } ] }
          "a" "alice" 1 :=
  ⟨(set_label_first_write_wins _ "a" "alice" 1 1 0
      (by decide) (by decide) (by decide)).2.1 (by decide),
   (set_label_first_write_wins _ "a" "alice" 1 1 0
      (by decide) (by decide) (by decide)).2.2⟩


lemma remaining_ids_length (t : Table) (u : String) :
    (remaining_ids t u).length
      = t.rows.length - t.rows.countP (fun r => (userCellRow t u r).isSome) := by
  unfold remaining_ids
  rw [List.length_map, ← List.countP_eq_length_filter]
  have h := List.length_eq_countP_add_countP
    (fun r => (userCellRow t u r).isSome) (l := t.rows)
  have hc : t.rows.countP (fun r => decide ¬((userCellRow t u r).isSome = true))
      = t.rows.countP (fun r => (userCellRow t u r).isNone) := by
    apply List.countP_congr
    intro r _
    cases userCellRow t u r <;> simp
  omega

lemma select_step_none_picks (t : Table) (u : String) (k : Nat)
    (h : remaining_ids t u ≠ []) :
    select_step t u none k
      = SelectOutcome.selected
          ((remaining_ids t u).getD (k % (remaining_ids t u).length) "") true := by
  have hlen : (remaining_ids t u).length ≠ 0 := by
    intro hc
    exact h (List.eq_nil_of_length_eq_zero hc)
  have hsub : t.rows.length - t.rows.countP (fun r => (userCellRow t u r).isSome) ≠ 0 := by
    rw [← remaining_ids_length]
    exact hlen
  unfold select_step
  simp [hsub]

lemma getD_mod_mem (l : List String) (k : Nat) (h : l ≠ []) :
    l.getD (k % l.length) "" ∈ l := by
  have hpos : 0 < l.length := List.length_pos.mpr h
  have hk : k % l.length < l.length := Nat.mod_lt _ hpos
  rw [List.getD_eq_getElem?_getD, List.getElem?_eq_getElem hk]
  simp only [Option.getD_some]
  exact List.getElem_mem hk

/-- C8: whenever the selector runs for a user, a random pick lands inside
`remaining_ids`, a fresh pick happens only when no held `current_id` is
still in `remaining_ids`, and with `remaining_ids` empty it reports the
completion state and never invokes the random choice (every `selected`
outcome requires a nonempty `remaining_ids`). -/
theorem selector_safety (t : Table) (u : String) (cur : Option String) (k : Nat) :
    (select_step t u cur k = SelectOutcome.completed ↔ remaining_ids t u = [])
  ∧ (∀ i p, select_step t u cur k = SelectOutcome.selected i p → i ∈ remaining_ids t u)
  ∧ (∀ i, select_step t u cur k = SelectOutcome.selected i true →
      ∀ c, cur = some c → c ∉ remaining_ids t u) := by
  by_cases h0 : t.rows.length - t.rows.countP (fun r => (userCellRow t u r).isSome) = 0
  · have hrem : remaining_ids t u = [] :=
      List.eq_nil_of_length_eq_zero (by rw [remaining_ids_length]; exact h0)
    have hsel : select_step t u cur k = SelectOutcome.completed := by
      unfold select_step
      simp [h0]
    refine ⟨⟨fun _ => hrem, fun _ => hsel⟩, ?_, ?_⟩
    · intro i p hip
      rw [hsel] at hip
      simp at hip
    · intro i hip c _
      rw [hsel] at hip
      simp at hip
  · have hremne : remaining_ids t u ≠ [] := by
      intro hc
      apply h0
      have hlz : (remaining_ids t u).length = 0 := by rw [hc]; rfl
      rw [remaining_ids_length] at hlz
      exact hlz
    cases cur with
    | none =>
      have hsel := select_step_none_picks t u k hremne
      refine ⟨⟨?_, fun hc => absurd hc hremne⟩, ?_, ?_⟩
      · intro hcomp
        rw [hsel] at hcomp
        simp at hcomp
      · intro i p hip
        rw [hsel] at hip
        simp only [SelectOutcome.selected.injEq] at hip
        obtain ⟨rfl, -⟩ := hip
        exact getD_mod_mem _ k hremne
      · intro i _ c hc
        simp at hc
    | some c0 =>
      by_cases hc0 : c0 ∈ remaining_ids t u
      · have hsel : select_step t u (some c0) k = SelectOutcome.selected c0 false := by
          unfold select_step
          simp [h0, hc0]
        refine ⟨⟨?_, fun hc => absurd hc hremne⟩, ?_, ?_⟩
        · intro hcomp
          rw [hsel] at hcomp
          simp at hcomp
        · intro i p hip
          rw [hsel] at hip
          simp only [SelectOutcome.selected.injEq] at hip
          obtain ⟨rfl, -⟩ := hip
          exact hc0
        · intro i hip c hc
          rw [hsel] at hip
          simp at hip
      · have hsel : select_step t u (some c0) k
            = SelectOutcome.selected
                ((remaining_ids t u).getD (k % (remaining_ids t u).length) "") true := by
          unfold select_step
          simp [h0, hc0]
        refine ⟨⟨?_, fun hc => absurd hc hremne⟩, ?_, ?_⟩
        · intro hcomp
          rw [hsel] at hcomp
          simp at hcomp
        · intro i p hip
          rw [hsel] at hip
          simp only [SelectOutcome.selected.injEq] at hip
          obtain ⟨rfl, -⟩ := hip
          exact getD_mod_mem _ k hremne
        · intro i _ c hc
          rw [Option.some_inj] at hc
          rw [← hc]
          exact hc0

/-- Witness for C8: user "bob" has one unlabeled id, the pick returns it;
and a fully labeled table reports completion. -/
theorem selector_safety_witness :
    "a" ∈ remaining_ids
        { userCols := ["bob"]
        , rows := [ { id := "a", gpt := some 0, labels := [none] }
                  , { id := "b", gpt := some 0, labels := [some 1] } ] } "bob"
  ∧ select_step
        { userCols := ["bob"]
        , rows := [ { id := "a", gpt := some 0, labels := [some 0] } ] } "bob" (some "a") 3
      = SelectOutcome.completed :=
  ⟨(selector_safety _ "bob" none 0).2.1 "a" true (by decide),
   (selector_safety _ "bob" (some "a") 3).1.mpr (by decide)⟩

lemma countP_ne_zero_of_getCell_some {t : Table} {cid u : String} {x : Int}
    (h : getCell t cid u = some x) :
    t.rows.countP (fun r => r.id == cid) ≠ 0 := by
  unfold getCell at h
  cases hf : firstRowWithId t.rows cid with
  | none =>
    rw [hf] at h
    simp at h
  | some r =>
    intro hc
    have hmem := List.mem_of_find?_eq_some hf
    have hbeq : (r.id == cid) = true := by simpa using List.find?_some hf
    rw [List.countP_eq_zero] at hc
    exact absurd hbeq (by simpa using hc r hmem)

/-- C4: when the current id is not found in the freshly reloaded annotation
table (`mask.sum() == 0`), the handler reports an internal error and aborts:
the local file, the remote copy and the session's `current_id` are all left
exactly as they were, and neither `set_label`, `save` nor `push` happens. -/
theorem click_unknown_id_aborts (ids : List String) (u cid : String) (w : World)
    (v : Int) (o : UploadOutcome)
    (h : (ensureUserCol (load_annotations ids w.localFile) u).rows.countP
          (fun r => r.id == cid) = 0) :
    update_label_and_rerun ids u cid w v o = (w, [Event.load, Event.err]) := by
  unfold update_label_and_rerun
  simp [h]

/-- Witness for C4: clicking while holding an id outside the Sample set. -/
theorem click_unknown_id_aborts_witness :
    update_label_and_rerun ["a"] "alice" "zzz"
        { localFile := none, remote := none, currentId := some "zzz" } 1 UploadOutcome.ok
      = ({ localFile := none, remote := none, currentId := some "zzz" },
         [Event.load, Event.err]) :=
  click_unknown_id_aborts ["a"] "alice" "zzz"
    { localFile := none, remote := none, currentId := some "zzz" } 1 UploadOutcome.ok
    (by decide)

/-- Counterexample to C3 as frozen: on a click whose target cell is already
set for the user, the handler does NOT perform the save step (nor the push),
so "on activation of either control the handler performs load, set_label,
save, push, clear, rerun" fails at this concrete input. -/
theorem click_full_sequence_cex :
    Event.save ∉ (update_label_and_rerun ["a"] "alice" "a"
      { localFile := some { userCols := ["alice"]
                          , rows := [ { id := "a", gpt := some 0, labels := [some 1] } ] }
      , remote := none, currentId := some "a" } 0 UploadOutcome.ok).2 := by
  decide

/-- C3 (amended): on activation of either control, when the current id is
present in the reloaded table and the user's cell for it is unset, the
handler performs, in order: a fresh reload of the annotation table,
`set_label` for the current id and username, persistence via save, a push to
remote storage, and a clearing of `current_id` to none before re-rendering
from the top.  (When the cell is already set, save and push are skipped —
see the counterexample and C9; when the id is missing it aborts — see
C4.) -/
theorem click_full_sequence (ids : List String) (u cid : String) (w : World)
    (v : Int) (o : UploadOutcome)
    (hmask : (ensureUserCol (load_annotations ids w.localFile) u).rows.countP
          (fun r => r.id == cid) ≠ 0)
    (hunset : getCell (ensureUserCol (load_annotations ids w.localFile) u) cid u = none) :
    (update_label_and_rerun ids u cid w v o).2
      = [Event.load, Event.setLabel, Event.save, Event.push,
         Event.clearCurrentId, Event.rerun]
  ∧ (update_label_and_rerun ids u cid w v o).1.localFile
      = some (save_annotations
          (set_label (ensureUserCol (load_annotations ids w.localFile) u) cid u v))
  ∧ (update_label_and_rerun ids u cid w v o).1.remote
      = (upload_to_dropbox
          (some (save_annotations
            (set_label (ensureUserCol (load_annotations ids w.localFile) u) cid u v)))
          o w.remote).1
  ∧ (update_label_and_rerun ids u cid w v o).1.currentId = none := by
  unfold update_label_and_rerun
  simp [hmask, hunset]

/-- Witness for C3 (amended): a fresh cell gets the full effect sequence. -/
theorem click_full_sequence_witness :
    (update_label_and_rerun ["a"] "alice" "a"
      { localFile := some { userCols := ["alice"]
                          , rows := [ { id := "a", gpt := some 0, labels := [none] } ] }
      , remote := none, currentId := some "a" } 1 UploadOutcome.ok).2
      = [Event.load, Event.setLabel, Event.save, Event.push,
         Event.clearCurrentId, Event.rerun] :=
  (click_full_sequence ["a"] "alice" "a"
    { localFile := some { userCols := ["alice"]
                        , rows := [ { id := "a", gpt := some 0, labels := [none] } ] }
    , remote := none, currentId := some "a" } 1 UploadOutcome.ok
    (by decide) (by decide)).1

/-- C9: on a click whose target cell is already set for the user, neither
save nor push happens — the local annotation file and the remote copy are
unchanged — yet `current_id` is still cleared, so the rerun's selector draws
a fresh random pick whenever unlabeled ids remain. -/
theorem click_already_set_noop (ids : List String) (u cid : String) (w : World)
    (v : Int) (o : UploadOutcome)
    (h : ∃ x, getCell (ensureUserCol (load_annotations ids w.localFile) u) cid u = some x) :
    update_label_and_rerun ids u cid w v o
      = ({ w with currentId := none },
         [Event.load, Event.setLabel, Event.clearCurrentId, Event.rerun])
  ∧ (update_label_and_rerun ids u cid w v o).1.localFile = w.localFile
  ∧ (update_label_and_rerun ids u cid w v o).1.remote = w.remote
  ∧ (update_label_and_rerun ids u cid w v o).1.currentId = none
  ∧ Event.save ∉ (update_label_and_rerun ids u cid w v o).2
  ∧ Event.push ∉ (update_label_and_rerun ids u cid w v o).2
  ∧ (∀ (t' : Table) (k : Nat), remaining_ids t' u ≠ [] →
      ∃ i, select_step t' u (update_label_and_rerun ids u cid w v o).1.currentId k
            = SelectOutcome.selected i true) := by
  obtain ⟨x, hx⟩ := h
  have hmask := countP_ne_zero_of_getCell_some hx
  have heq : update_label_and_rerun ids u cid w v o
      = ({ w with currentId := none },
         [Event.load, Event.setLabel, Event.clearCurrentId, Event.rerun]) := by
    unfold update_label_and_rerun
    simp [hmask, hx]
  refine ⟨heq, ?_, ?_, ?_, ?_, ?_, ?_⟩
  · rw [heq]
  · rw [heq]
  · rw [heq]
  · rw [heq]
    simp
  · rw [heq]
    simp
  · intro t' k hne
    rw [heq]
    exact ⟨_, select_step_none_picks t' u k hne⟩

/-- Witness for C9: a second click on an already-labeled item changes no
stored state and skips the push. -/
theorem click_already_set_noop_witness :
    (update_label_and_rerun ["a"] "alice" "a"
      { localFile := some { userCols := ["alice"]
                          , rows := [ { id := "a", gpt := some 0, labels := [some 1] } ] }
      , remote := none, currentId := some "a" } 0 UploadOutcome.ok).1.localFile
      = some { userCols := ["alice"]
             , rows := [ { id := "a", gpt := some 0, labels := [some 1] } ] }
  ∧ Event.push ∉ (update_label_and_rerun ["a"] "alice" "a"
      { localFile := some { userCols := ["alice"]
                          , rows := [ { id := "a", gpt := some 0, labels := [some 1] } ] }
      , remote := none, currentId := some "a" } 0 UploadOutcome.ok).2 :=
  ⟨(click_already_set_noop ["a"] "alice" "a" _ 0 UploadOutcome.ok ⟨1, by decide⟩).2.1,
   (click_already_set_noop ["a"] "alice" "a" _ 0 UploadOutcome.ok ⟨1, by decide⟩).2.2.2.2.2.1⟩
